import Mathlib

/-!
Verification of the concurrent command supervisor of `runcc`
(`src/runcc/src/run/system.rs`).

The supervisor spawns a fixed set of child processes, watches each one's
exit in its own task, and runs a single coordinator task that serializes
exit reports and external kill-all requests through one bounded mpsc
channel, evaluating the configured `KillBehavior` to decide whether to
broadcast a kill to every still-running sibling.

The embedding below is shallow and translated directly from the source:

* pure data (`CommandState`, `KillBehavior`, `ExitStatusPattern`,
  `KillCommandReason`, channel messages) becomes Lean inductive types;
  the type parameter `T` of the Rust generics is instantiated to `Nat`,
  and `io::Result<ExitStatus>` / `Result<_, Error>` become `Option` /
  `Except` values (`none` / `.error` = the error case);
* the kill-policy evaluation (system.rs lines 124-157) becomes the pure
  functions `shouldKillAll` and `decideReason`;
* the concurrent run of watcher tasks, the coordinator task and the
  cloneable `kill_all` handle becomes a small-step transition relation
  `Step` over a global state `Sys`; each constructor is one atomic
  section of the source (one mutex-guarded block, one channel operation,
  one loop iteration).  `Reachable` closes it reflexively-transitively
  from the state produced by `spawn_with_plugin`.
* the bounded channel is modelled by its queue and by whether the
  receiver / senders are still alive; the buffer bound only provides
  back-pressure in the source (senders block, nothing is dropped), so it
  does not appear in the dynamics, only in the construction-time panic
  (`mpscChannel`).
-/

namespace Runcc

/-- Observed exit status of a process, at the interface the supervisor
uses: `std::process::ExitStatus::success()` and `::code()`. -/
structure ExitStatus where
  success : Bool
  code : Option Int
  deriving DecidableEq, Repr

/-- Final record of a stopped command (`CommandStopped<T, T>` with `T`
instantiated to `Nat`): the per-command data together with the exit
outcome.  The Rust field is `exit_status: io::Result<ExitStatus>`; it is
modelled as `Option ExitStatus`, `none` being the undeterminable case
(`Err`), matching how the supervisor consumes it via `.as_ref().ok()`. -/
structure CommandStopped where
  data : Nat
  exit_status : Option ExitStatus
  deriving DecidableEq, Repr

/-- ExitStatusPattern, as used by the kill-policy match in
system.rs lines 128-144. -/
inductive ExitStatusPattern where
  | success
  | failed
  | statusCode (code : Int)
  deriving DecidableEq, Repr

/-- KillBehavior configuration (one value per run). -/
inductive KillBehavior where
  | none
  | whenAnyExited
  | whenAnyExitedWithStatus (pattern : ExitStatusPattern)
  deriving DecidableEq, Repr

/-- kill::KillCommandReason: why a kill was issued (system.rs lines
148-156). -/
inductive KillCommandReason where
  | otherCommandExited (cmd : CommandStopped)
  | mainProcessGotSignal
  deriving DecidableEq, Repr

/-- CommandState (system.rs lines 17-24).  The `killer` field of
`Spawned` is the per-command kill handle; invoking it is modelled as the
`killInvoked` event below, so only the data is kept here. -/
inductive CommandState where
  | processing
  | spawned (data : Nat)
  | stopped (cmd : CommandStopped)
  deriving DecidableEq, Repr

/-- Kill-policy evaluation, translated from the coordinator's match on
`kill_behavior` (system.rs lines 125-145): `should_kill_all`. -/
def shouldKillAll (kill_behavior : KillBehavior) (exited_cmd : CommandStopped) : Bool :=
  match kill_behavior with
  | .none => false
  | .whenAnyExited => true
  | .whenAnyExitedWithStatus status =>
    match status with
    | .success =>
      match exited_cmd.exit_status with
      | some s => s.success
      | none => false
    | .failed =>
      match exited_cmd.exit_status with
      | some s => !s.success
      | none => true
    | .statusCode code =>
      match exited_cmd.exit_status with
      | some s => s.code == some code
      | none => false

/-- Message travelling on the decision channel:
`Option<Arc<CommandStopped<T, T>>>`.  `Some` is an exit report,
`None` is the kill-everything signal sent by `kill_all`. -/
inductive Msg where
  | report (cmd : CommandStopped)
  | killAllSignal
  deriving DecidableEq, Repr

/-- Computation of the kill reason for one received message
(system.rs lines 124-157): an exit report yields a reason exactly when
the configured behavior demands it; the kill-everything signal always
yields `MainProcessGotSignal`. -/
def decideReason (kill_behavior : KillBehavior) (msg : Msg) : Option KillCommandReason :=
  match msg with
  | .report exited_cmd =>
    if shouldKillAll kill_behavior exited_cmd then
      some (.otherCommandExited exited_cmd)
    else
      none
  | .killAllSignal => some .mainProcessGotSignal

/-- Spec-side matching rule for `ExitStatusPattern` (spec section 3),
written from the spec's words for comparison with the code's
`shouldKillAll`: `Success` matches a clean zero-style exit; `Failed`
matches any non-clean exit and also an undeterminable status;
`StatusCode(n)` matches only an exact observed code. -/
def patternMatchesSpec (pattern : ExitStatusPattern) (st : Option ExitStatus) : Prop :=
  match pattern with
  | .success => ∃ s, st = some s ∧ s.success = true
  | .failed => st = Option.none ∨ ∃ s, st = some s ∧ s.success = false
  | .statusCode n => ∃ s, st = some s ∧ s.code = some n

/-- Phase of one watcher task (the async block spawned per command,
system.rs lines 79-111): still awaiting the process (`waiting`), past
the locked transition with a report left to send (`sending`), or
finished (`done`).  A watcher owns a clone of the channel sender until
its task ends. -/
inductive WatcherPhase where
  | waiting
  | sending (cmd : CommandStopped)
  | done
  deriving DecidableEq, Repr

/-- Phase of the coordinator task (system.rs lines 122-176): in the
`while let` receive loop (`recving`), inside the kill `for` loop with
`k` cells already examined (`broadcasting`), or returned (`done`). -/
inductive CoordPhase where
  | recving
  | broadcasting (reason : KillCommandReason) (k : Nat)
  | done
  deriving DecidableEq, Repr

/-- Observable effects, recorded in order of occurrence:
`pluginNotified i cmd` is `plugin.on_command_exited` from watcher `i`;
`killInvoked i reason` is `killer.kill(reason)` on command `i`;
`broadcastDecided reason` marks the coordinator acting on a kill
decision (entering the lines 159-174 block); `channelDrained` marks
`rx.recv()` returning `None`. -/
inductive Event where
  | pluginNotified (i : Nat) (cmd : CommandStopped)
  | killInvoked (i : Nat) (reason : KillCommandReason)
  | broadcastDecided (reason : KillCommandReason)
  | channelDrained
  deriving DecidableEq, Repr

/-- Global state of one run of the command system: the per-command
state cells, the watcher and coordinator task phases, the decision
channel (buffered queue, whether the receiver is alive, whether the
`CommandSystem.killer` field still holds a sender), and the event log. -/
structure Sys where
  kill_behavior : KillBehavior
  cells : List CommandState
  watchers : List WatcherPhase
  queue : List Msg
  rxAlive : Bool
  systemKillerAlive : Bool
  coord : CoordPhase
  log : List Event
  deriving DecidableEq, Repr

/-- State right after `spawn_with_plugin` succeeds on commands whose
plugin-initialized data is `ds`: every cell `Spawned`, every watcher
awaiting its process, the coordinator receiving, the channel empty with
the receiver alive and the system's killer holding a sender
(system.rs lines 181-186). -/
def initSys (kill_behavior : KillBehavior) (ds : List Nat) : Sys :=
  { kill_behavior := kill_behavior
    cells := ds.map .spawned
    watchers := ds.map fun _ => .waiting
    queue := []
    rxAlive := true
    systemKillerAlive := true
    coord := .recving
    log := [] }

/-- Values written to a cell during the watcher's locked transition
(system.rs lines 85-101): `mem::replace` installs `Processing`, then
`Stopped` is stored; any state other than `Spawned` hits the
`panic!("unreachable")` arm, modelled as `none`. -/
def watcherLockWrites (old : CommandState) (outcome : Option ExitStatus) :
    Option (List CommandState) :=
  match old with
  | .spawned data =>
    some [.processing, .stopped { data := data, exit_status := outcome }]
  | _ => none

/-- Watcher `i` observes its process exit with `outcome` and runs the
whole mutex-guarded block (system.rs lines 82-106) atomically: the cell
goes `Spawned` to `Stopped`, the plugin is notified, and `tx.is_closed()`
decides whether a report send follows. -/
def watcherExitStep (s : Sys) (i : Nat) (data : Nat) (outcome : Option ExitStatus) : Sys :=
  let r : CommandStopped := { data := data, exit_status := outcome }
  { s with
    cells := s.cells.set i (.stopped r)
    watchers := s.watchers.set i (if s.rxAlive then .sending r else .done)
    log := s.log ++ [.pluginNotified i r] }

/-- Watcher `i` performs `tx.send(Some(cmd)).await` (system.rs line
109); when the receiver was dropped in the meantime the send fails and
the error is discarded.  The watcher task then ends, dropping its
sender clone. -/
def watcherSendStep (s : Sys) (i : Nat) (r : CommandStopped) : Sys :=
  { s with
    watchers := s.watchers.set i .done
    queue := if s.rxAlive then s.queue ++ [.report r] else s.queue }

/-- CommandSystemKiller::kill_all (system.rs lines 30-32): send `None`
into the decision channel, ignoring the result; a send on a closed
channel fails and changes nothing. -/
def killAllStep (s : Sys) : Sys :=
  { s with queue := if s.rxAlive then s.queue ++ [.killAllSignal] else s.queue }

/-- Coordinator receives one message (system.rs lines 123-160):
evaluate the kill policy; on a kill decision `drop(rx)` closes the
channel (discarding its buffer) and the kill loop begins; otherwise
keep receiving. -/
def coordRecvStep (s : Sys) (msg : Msg) (rest : List Msg) : Sys :=
  match decideReason s.kill_behavior msg with
  | Option.none => { s with queue := rest }
  | some reason =>
    { s with
      queue := []
      rxAlive := false
      coord := .broadcasting reason 0
      log := s.log ++ [.broadcastDecided reason] }

/-- One iteration of the kill loop (system.rs lines 162-171): lock cell
`k`; if it is still `Spawned` invoke its killer with the reason,
otherwise leave it untouched. -/
def coordKillStep (s : Sys) (reason : KillCommandReason) (k : Nat) : Sys :=
  { s with
    coord := .broadcasting reason (k + 1)
    log := s.log ++
      match s.cells[k]? with
      | some (.spawned _) => [.killInvoked k reason]
      | _ => [] }

/-- Coordinator `break` after the kill loop covered every cell
(system.rs line 173): the task returns. -/
def coordBreakStep (s : Sys) : Sys :=
  { s with coord := .done }

/-- rx.recv() returns `None` (the `while let` at line 123 falls
through): only possible once the channel is empty and every sender is
dropped; the coordinator exits without issuing any kill, and its `rx`
is dropped with the task. -/
def coordDrainStep (s : Sys) : Sys :=
  { s with coord := .done, rxAlive := false, log := s.log ++ [.channelDrained] }

/-- A sender to the decision channel exists while the system's `killer`
field holds one (system.rs line 183) or some watcher task still owns
its clone (line 76). -/
def sendersAlive (s : Sys) : Bool :=
  s.systemKillerAlive || s.watchers.any fun w => w != .done

/-- Small-step transition relation of the whole system.  The parameter
`ka` enables the external `kill_all` steps; `Step false` describes runs
on which `kill_all` is never invoked. -/
inductive Step (ka : Bool) : Sys → Sys → Prop where
  | watcherExit (s : Sys) (i data : Nat) (outcome : Option ExitStatus) :
      s.cells[i]? = some (.spawned data) →
      s.watchers[i]? = some .waiting →
      Step ka s (watcherExitStep s i data outcome)
  | watcherSend (s : Sys) (i : Nat) (r : CommandStopped) :
      s.watchers[i]? = some (.sending r) →
      Step ka s (watcherSendStep s i r)
  | killAll (s : Sys) :
      ka = true →
      s.systemKillerAlive = true →
      Step ka s (killAllStep s)
  | coordRecv (s : Sys) (msg : Msg) (rest : List Msg) :
      s.coord = .recving →
      s.queue = msg :: rest →
      Step ka s (coordRecvStep s msg rest)
  | coordKill (s : Sys) (reason : KillCommandReason) (k : Nat) :
      s.coord = .broadcasting reason k →
      k < s.cells.length →
      Step ka s (coordKillStep s reason k)
  | coordBreak (s : Sys) (reason : KillCommandReason) (k : Nat) :
      s.coord = .broadcasting reason k →
      s.cells.length ≤ k →
      Step ka s (coordBreakStep s)
  | coordDrain (s : Sys) :
      s.coord = .recving →
      s.queue = [] →
      sendersAlive s = false →
      Step ka s (coordDrainStep s)

/-- States reachable from a freshly spawned system. -/
def Reachable (ka : Bool) (kill_behavior : KillBehavior) (ds : List Nat) (s : Sys) : Prop :=
  Relation.ReflTransGen (Step ka) (initSys kill_behavior ds) s

/-- tokio's `mpsc::channel(buffer)` constructor: its documented contract
panics when `buffer` is zero ("mpsc bounded channel requires buffer >
0"); `none` models that panic. -/
def mpscChannel (buffer : Nat) : Option Nat :=
  if buffer = 0 then Option.none else some buffer

/-- Collection of per-command spawn results, mirroring
`collect::<io::Result<Vec<_>>>()` (system.rs line 115): the first
`Err` aborts the whole collection. -/
def collectResults : List (Except Nat Nat) → Except Nat (List Nat)
  | [] => .ok []
  | .error e :: _ => .error e
  | .ok a :: rest => (collectResults rest).map (a :: ·)

/-- Result of constructing the system: a tokio-level panic (zero channel
capacity), an `io::Error` surfaced to the caller, or the running
system. -/
inductive SpawnOutcome where
  | panicked
  | failed (err : Nat)
  | ok (sys : Sys)
  deriving DecidableEq, Repr

/-- spawn_with_plugin (system.rs lines 50-187), over the outcome of each
individual process spawn (`.ok data` = spawned with plugin-initialized
data, `.error e` = `io::Error`): collect the input (line 55), create the
channel with capacity `cmp::min(commands.len(), 1)` (line 56), spawn
every command aborting on the first failure (lines 60-115), and return
the assembled system (lines 181-186). -/
def spawn_with_plugin (kill_behavior : KillBehavior) (specs : List (Except Nat Nat)) :
    SpawnOutcome :=
  match mpscChannel (min specs.length 1) with
  | Option.none => .panicked
  | some _ =>
    match collectResults specs with
    | .error e => .failed e
    | .ok ds => .ok (initSys kill_behavior ds)

/-- Reading of the final records (system.rs lines 213-223): every cell
must be `Stopped`, in original command order; any other cell panics
("CommandState should be stopped after handles joined"), modelled as
`none`. -/
def collectStopped : List CommandState → Option (List CommandStopped)
  | [] => some []
  | .stopped cmd :: rest => (collectStopped rest).map (cmd :: ·)
  | _ :: _ => none

/-- Ordered phases of `wait_into_stopped_commands` (system.rs lines
201-230): join every watcher handle and the coordinator handle, read
the state cells, and finally await the plugin's background task when it
exposes one. -/
inductive WaitPhase where
  | joinedHandles
  | readCells
  | pluginJoinAwaited
  deriving DecidableEq, Repr

/-- Order of the phases of `wait_into_stopped_commands` for a plugin
whose `join()` returns a handle iff `pluginHasJoin`. -/
def waitPhases (pluginHasJoin : Bool) : List WaitPhase :=
  [.joinedHandles, .readCells] ++ if pluginHasJoin then [.pluginJoinAwaited] else []

/-- wait_into_stopped_commands' returned records, as a function of the
cells once every handle is joined. -/
def wait_into_stopped_commands (s : Sys) : Option (List CommandStopped) :=
  collectStopped s.cells

/-- Ordered actions of the watcher's exit handling (system.rs lines
82-110), with `tx_closed` the value `tx.is_closed()` returns at line
93: acquire the cell lock (line 83), `mem::replace` the state with
`Processing` (line 85), store `Stopped` (line 91), call
`plugin.on_command_exited` (line 94 or 97), drop the guard (line 104),
and, only when the channel was open, send the report (line 109). -/
inductive WatcherAction where
  | lockAcquire
  | writeProcessing
  | writeStopped
  | pluginNotify
  | lockRelease
  | channelSend
  deriving DecidableEq, Repr

/-- Sequence of actions the watcher's exit handler performs, in source
order. -/
def watcherExitActions (tx_closed : Bool) : List WatcherAction :=
  [.lockAcquire, .writeProcessing, .writeStopped, .pluginNotify, .lockRelease]
    ++ if tx_closed then [] else [.channelSend]

/-- Number of kill broadcasts acted upon so far. -/
def countBroadcasts (log : List Event) : Nat :=
  log.countP fun e => match e with | .broadcastDecided _ => true | _ => false

/-- Number of plugin exit notifications for command `i` so far. -/
def countNotify (i : Nat) (log : List Event) : Nat :=
  log.countP fun e => match e with | .pluginNotified j _ => j == i | _ => false

/-- Inductive invariant of the transition system: channel/coordinator
consistency (the receive loop is exactly where the receiver is alive;
once the channel is closed its buffer stays empty), the one-to-one
correspondence between a `Spawned` cell and its watcher still waiting,
at most one kill broadcast (and none while still receiving), kill
signals only after the channel is closed, the system's killer sender
never dropped, and exactly one plugin notification per exited command. -/
structure Inv (s : Sys) : Prop where
  wlen : s.watchers.length = s.cells.length
  killer_alive : s.systemKillerAlive = true
  recv_rx : s.coord = CoordPhase.recving ↔ s.rxAlive = true
  rx_queue : s.rxAlive = false → s.queue = []
  cell_watcher : ∀ i : Nat,
    (∃ d, s.cells[i]? = some (CommandState.spawned d)) ↔
      s.watchers[i]? = some WatcherPhase.waiting
  no_processing : ∀ i : Nat, s.cells[i]? ≠ some CommandState.processing
  bcast_recv : s.coord = CoordPhase.recving → countBroadcasts s.log = 0
  bcast_le : countBroadcasts s.log ≤ 1
  kill_closed : ∀ i r, Event.killInvoked i r ∈ s.log → s.rxAlive = false
  notify_waiting : ∀ i : Nat,
    s.watchers[i]? = some WatcherPhase.waiting → countNotify i s.log = 0
  notify_active : ∀ (i : Nat) (w : WatcherPhase),
    s.watchers[i]? = some w → w ≠ WatcherPhase.waiting → countNotify i s.log = 1

/-- Extra invariant of runs under `KillBehavior::None` on which
`kill_all` is never invoked: the queue holds only exit reports, the
coordinator never leaves its receive loop, and the log holds only
plugin notifications. -/
structure InvNone (s : Sys) : Prop where
  kb : s.kill_behavior = KillBehavior.none
  coord_recv : s.coord = CoordPhase.recving
  queue_reports : ∀ m ∈ s.queue, ∃ cmd, m = Msg.report cmd
  log_clean : ∀ e ∈ s.log, ∃ i cmd, e = Event.pluginNotified i cmd

/-- State of a complete clean run of two commands under
`KillBehavior::None`: both processes exit, both watchers transition
their cells and deliver their reports, and the coordinator consumes
both reports without a kill decision. -/
def sysAfterCleanRun : Sys :=
  coordRecvStep
    (watcherSendStep
      (watcherExitStep
        (coordRecvStep
          (watcherSendStep
            (watcherExitStep (initSys KillBehavior.none [1, 2]) 0 1 Option.none)
            0 { data := 1, exit_status := Option.none })
          (Msg.report { data := 1, exit_status := Option.none }) [])
        1 2 Option.none)
      1 { data := 2, exit_status := Option.none })
    (Msg.report { data := 2, exit_status := Option.none }) []

theorem lt_length_of_getElem? {α : Type} {l : List α} {i : Nat} {a : α}
    (h : l[i]? = some a) : i < l.length := by
  by_contra hc
  rw [List.getElem?_eq_none (Nat.le_of_not_lt hc)] at h
  exact Option.noConfusion h

theorem countBroadcasts_append (log : List Event) (e : Event) :
    countBroadcasts (log ++ [e]) =
      countBroadcasts log +
        (match e with | .broadcastDecided _ => 1 | _ => 0) := by
  unfold countBroadcasts
  rw [List.countP_append]
  cases e <;> simp [List.countP_cons]

theorem countNotify_append (i : Nat) (log : List Event) (e : Event) :
    countNotify i (log ++ [e]) =
      countNotify i log +
        (match e with
         | .pluginNotified j _ => if j = i then 1 else 0
         | _ => 0) := by
  unfold countNotify
  rw [List.countP_append]
  cases e with
  | pluginNotified j cmd =>
    by_cases hj : j = i <;> simp [List.countP_cons, hj]
  | killInvoked j r => simp [List.countP_cons]
  | broadcastDecided r => simp [List.countP_cons]
  | channelDrained => simp [List.countP_cons]

theorem inv_init (kill_behavior : KillBehavior) (ds : List Nat) :
    Inv (initSys kill_behavior ds) := by
  refine ⟨?_, rfl, by simp [initSys], by simp [initSys], ?_, ?_, ?_, ?_, ?_, ?_, ?_⟩
  · simp [initSys]
  · intro i
    simp only [initSys, List.getElem?_map]
    cases ds[i]? <;> simp
  · intro i
    simp only [initSys, List.getElem?_map]
    cases ds[i]? <;> simp
  · intro _; simp [initSys, countBroadcasts]
  · simp [initSys, countBroadcasts]
  · intro i r h; simp [initSys] at h
  · intro i _; simp [initSys, countNotify]
  · intro i w hw _
    simp only [initSys, List.getElem?_map] at hw
    cases h : ds[i]? with
    | none => rw [h] at hw; exact Option.noConfusion hw
    | some d =>
      rw [h] at hw
      simp at hw
      exact absurd hw.symm (by intro hc; cases hc; simp_all)

theorem inv_watcherExit {s : Sys} (hinv : Inv s) {i data : Nat} {outcome : Option ExitStatus}
    (hc : s.cells[i]? = some (CommandState.spawned data))
    (hw : s.watchers[i]? = some WatcherPhase.waiting) :
    Inv (watcherExitStep s i data outcome) := by
  have hci : i < s.cells.length := lt_length_of_getElem? hc
  have hwi : i < s.watchers.length := lt_length_of_getElem? hw
  refine ⟨?_, hinv.killer_alive, hinv.recv_rx, hinv.rx_queue, ?_, ?_, ?_, ?_, ?_, ?_, ?_⟩
  · simp [watcherExitStep, hinv.wlen]
  · intro j
    by_cases hj : i = j
    · subst hj
      simp only [watcherExitStep]
      rw [List.getElem?_set_eq_of_lt _ hci, List.getElem?_set_eq_of_lt _ hwi]
      constructor
      · rintro ⟨d, hd⟩
        exact absurd hd (by simp)
      · intro hph
        cases hrx : s.rxAlive <;> rw [hrx] at hph <;> simp at hph
    · simp only [watcherExitStep]
      rw [List.getElem?_set_ne hj, List.getElem?_set_ne hj]
      exact hinv.cell_watcher j
  · intro j
    by_cases hj : i = j
    · subst hj
      simp only [watcherExitStep]
      rw [List.getElem?_set_eq_of_lt _ hci]
      simp
    · simp only [watcherExitStep]
      rw [List.getElem?_set_ne hj]
      exact hinv.no_processing j
  · intro hco
    simp only [watcherExitStep] at hco ⊢
    rw [countBroadcasts_append]
    simpa using hinv.bcast_recv hco
  · simp only [watcherExitStep]
    rw [countBroadcasts_append]
    simpa using hinv.bcast_le
  · intro j r' hmem
    simp only [watcherExitStep, List.mem_append, List.mem_singleton] at hmem
    rcases hmem with hmem | hmem
    · exact hinv.kill_closed j r' hmem
    · exact absurd hmem (by simp)
  · intro j hwj
    simp only [watcherExitStep] at hwj ⊢
    by_cases hj : i = j
    · subst hj
      rw [List.getElem?_set_eq_of_lt _ hwi] at hwj
      cases hrx : s.rxAlive <;> rw [hrx] at hwj <;> simp at hwj
    · rw [List.getElem?_set_ne hj] at hwj
      rw [countNotify_append]
      simp only [hj, if_false]
      simpa using hinv.notify_waiting j hwj
  · intro j w hwj hne
    simp only [watcherExitStep] at hwj ⊢
    by_cases hj : i = j
    · subst hj
      rw [countNotify_append]
      simp [hinv.notify_waiting i hw]
    · rw [List.getElem?_set_ne hj] at hwj
      rw [countNotify_append]
      simp only [hj, if_false]
      simpa using hinv.notify_active j w hwj hne

theorem inv_watcherSend {s : Sys} (hinv : Inv s) {i : Nat} {r : CommandStopped}
    (hw : s.watchers[i]? = some (WatcherPhase.sending r)) :
    Inv (watcherSendStep s i r) := by
  have hwi : i < s.watchers.length := lt_length_of_getElem? hw
  refine ⟨?_, hinv.killer_alive, hinv.recv_rx, ?_, ?_, hinv.no_processing, hinv.bcast_recv,
    hinv.bcast_le, hinv.kill_closed, ?_, ?_⟩
  · simp [watcherSendStep, hinv.wlen]
  · intro hrx
    simp only [watcherSendStep] at hrx ⊢
    rw [hrx]
    simpa using hinv.rx_queue hrx
  · intro j
    by_cases hj : i = j
    · subst hj
      simp only [watcherSendStep]
      rw [List.getElem?_set_eq_of_lt _ hwi]
      constructor
      · intro hd
        have := (hinv.cell_watcher i).mp hd
        rw [hw] at this
        exact absurd this (by simp)
      · intro hph
        exact absurd hph (by simp)
    · simp only [watcherSendStep]
      rw [List.getElem?_set_ne hj]
      exact hinv.cell_watcher j
  · intro j hwj
    simp only [watcherSendStep] at hwj
    by_cases hj : i = j
    · subst hj
      rw [List.getElem?_set_eq_of_lt _ hwi] at hwj
      exact absurd hwj (by simp)
    · rw [List.getElem?_set_ne hj] at hwj
      exact hinv.notify_waiting j hwj
  · intro j w hwj hne
    simp only [watcherSendStep] at hwj
    by_cases hj : i = j
    · subst hj
      exact hinv.notify_active i (WatcherPhase.sending r) hw (by simp)
    · rw [List.getElem?_set_ne hj] at hwj
      exact hinv.notify_active j w hwj hne

theorem countBroadcasts_append_list (log l : List Event) :
    countBroadcasts (log ++ l) = countBroadcasts log + countBroadcasts l := by
  simp [countBroadcasts, List.countP_append]

theorem countNotify_append_list (i : Nat) (log l : List Event) :
    countNotify i (log ++ l) = countNotify i log + countNotify i l := by
  simp [countNotify, List.countP_append]

theorem killEntry_no_broadcast (s : Sys) (reason : KillCommandReason) (k : Nat) :
    countBroadcasts
      (match s.cells[k]? with
       | some (CommandState.spawned _) => [Event.killInvoked k reason]
       | _ => []) = 0 := by
  rcases s.cells[k]? with _ | c
  · simp [countBroadcasts]
  · cases c <;> simp [countBroadcasts, List.countP_cons]

theorem killEntry_no_notify (s : Sys) (reason : KillCommandReason) (i k : Nat) :
    countNotify i
      (match s.cells[k]? with
       | some (CommandState.spawned _) => [Event.killInvoked k reason]
       | _ => []) = 0 := by
  rcases s.cells[k]? with _ | c
  · simp [countNotify]
  · cases c <;> simp [countNotify, List.countP_cons]

theorem inv_killAll {s : Sys} (hinv : Inv s) : Inv (killAllStep s) := by
  refine ⟨hinv.wlen, hinv.killer_alive, hinv.recv_rx, ?_, hinv.cell_watcher,
    hinv.no_processing, hinv.bcast_recv, hinv.bcast_le, hinv.kill_closed,
    hinv.notify_waiting, hinv.notify_active⟩
  intro hrx
  simp only [killAllStep] at hrx ⊢
  rw [hrx]
  simpa using hinv.rx_queue hrx

theorem inv_coordRecv {s : Sys} (hinv : Inv s) {msg : Msg} {rest : List Msg}
    (hco : s.coord = CoordPhase.recving) (_hq : s.queue = msg :: rest) :
    Inv (coordRecvStep s msg rest) := by
  have hrx : s.rxAlive = true := hinv.recv_rx.mp hco
  cases hd : decideReason s.kill_behavior msg with
  | none =>
    have he : coordRecvStep s msg rest = { s with queue := rest } := by
      simp [coordRecvStep, hd]
    rw [he]
    refine ⟨hinv.wlen, hinv.killer_alive, hinv.recv_rx, ?_, hinv.cell_watcher,
      hinv.no_processing, hinv.bcast_recv, hinv.bcast_le, hinv.kill_closed,
      hinv.notify_waiting, hinv.notify_active⟩
    intro hfalse
    rw [hfalse] at hrx
    exact Bool.noConfusion hrx
  | some reason =>
    have he : coordRecvStep s msg rest =
        { s with
          queue := []
          rxAlive := false
          coord := CoordPhase.broadcasting reason 0
          log := s.log ++ [Event.broadcastDecided reason] } := by
      simp [coordRecvStep, hd]
    rw [he]
    refine ⟨hinv.wlen, hinv.killer_alive, ?_, ?_, hinv.cell_watcher, hinv.no_processing,
      ?_, ?_, ?_, ?_, ?_⟩
    · simp
    · simp
    · intro hfalse
      exact absurd hfalse (by simp)
    · show countBroadcasts (s.log ++ [Event.broadcastDecided reason]) ≤ 1
      rw [countBroadcasts_append]
      simp [hinv.bcast_recv hco]
    · intro j r' _
      rfl
    · intro j hwj
      show countNotify j (s.log ++ [Event.broadcastDecided reason]) = 0
      rw [countNotify_append]
      simpa using hinv.notify_waiting j hwj
    · intro j w hwj hne
      show countNotify j (s.log ++ [Event.broadcastDecided reason]) = 1
      rw [countNotify_append]
      simpa using hinv.notify_active j w hwj hne

theorem rx_dead_of_broadcasting {s : Sys} (hinv : Inv s) {reason : KillCommandReason} {k : Nat}
    (hco : s.coord = CoordPhase.broadcasting reason k) : s.rxAlive = false := by
  cases hrx : s.rxAlive
  · rfl
  · have := hinv.recv_rx.mpr hrx
    rw [hco] at this
    exact CoordPhase.noConfusion this

theorem inv_coordKill {s : Sys} (hinv : Inv s) {reason : KillCommandReason} {k : Nat}
    (hco : s.coord = CoordPhase.broadcasting reason k) :
    Inv (coordKillStep s reason k) := by
  have hrxf : s.rxAlive = false := rx_dead_of_broadcasting hinv hco
  refine ⟨hinv.wlen, hinv.killer_alive, ?_, ?_, hinv.cell_watcher, hinv.no_processing,
    ?_, ?_, ?_, ?_, ?_⟩
  · simp [coordKillStep, hrxf]
  · intro _
    simpa only [coordKillStep] using hinv.rx_queue hrxf
  · simp only [coordKillStep]
    intro hfalse
    exact absurd hfalse (by simp)
  · simp only [coordKillStep]
    rw [countBroadcasts_append_list, killEntry_no_broadcast]
    simpa using hinv.bcast_le
  · intro j r' _
    simpa only [coordKillStep] using hrxf
  · intro j hwj
    simp only [coordKillStep] at hwj ⊢
    rw [countNotify_append_list, killEntry_no_notify]
    simpa using hinv.notify_waiting j hwj
  · intro j w hwj hne
    simp only [coordKillStep] at hwj ⊢
    rw [countNotify_append_list, killEntry_no_notify]
    simpa using hinv.notify_active j w hwj hne

theorem inv_coordBreak {s : Sys} (hinv : Inv s) {reason : KillCommandReason} {k : Nat}
    (hco : s.coord = CoordPhase.broadcasting reason k) :
    Inv (coordBreakStep s) := by
  have hrxf : s.rxAlive = false := rx_dead_of_broadcasting hinv hco
  refine ⟨hinv.wlen, hinv.killer_alive, ?_, ?_, hinv.cell_watcher, hinv.no_processing,
    ?_, hinv.bcast_le, hinv.kill_closed, hinv.notify_waiting, hinv.notify_active⟩
  · simp [coordBreakStep, hrxf]
  · intro _
    simpa only [coordBreakStep] using hinv.rx_queue hrxf
  · simp only [coordBreakStep]
    intro hfalse
    exact absurd hfalse (by simp)

theorem sendersAlive_of_killer {s : Sys} (h : s.systemKillerAlive = true) :
    sendersAlive s = true := by
  simp [sendersAlive, h]

theorem inv_step {ka : Bool} {s s' : Sys} (hinv : Inv s) (hstep : Step ka s s') : Inv s' := by
  cases hstep with
  | watcherExit i data outcome hc hw => exact inv_watcherExit hinv hc hw
  | watcherSend i r hw => exact inv_watcherSend hinv hw
  | killAll hka hk => exact inv_killAll hinv
  | coordRecv msg rest hco hq => exact inv_coordRecv hinv hco hq
  | coordKill reason k hco hk => exact inv_coordKill hinv hco
  | coordBreak reason k hco hk => exact inv_coordBreak hinv hco
  | coordDrain hco hq hs =>
    rw [sendersAlive_of_killer hinv.killer_alive] at hs
    exact Bool.noConfusion hs

theorem inv_reachable {ka : Bool} {kb : KillBehavior} {ds : List Nat} {s : Sys}
    (h : Reachable ka kb ds s) : Inv s := by
  have h' : Relation.ReflTransGen (Step ka) (initSys kb ds) s := h
  clear h
  induction h' with
  | refl => exact inv_init kb ds
  | tail _ hstep ih => exact inv_step ih hstep

theorem shouldKillAll_pattern_iff (p : ExitStatusPattern) (cmd : CommandStopped) :
    shouldKillAll (KillBehavior.whenAnyExitedWithStatus p) cmd = true ↔
      patternMatchesSpec p cmd.exit_status := by
  obtain ⟨d, st⟩ := cmd
  cases p with
  | success =>
    cases st with
    | none => simp [shouldKillAll, patternMatchesSpec]
    | some s => simp [shouldKillAll, patternMatchesSpec]
  | failed =>
    cases st with
    | none => simp [shouldKillAll, patternMatchesSpec]
    | some s => simp [shouldKillAll, patternMatchesSpec]
  | statusCode n =>
    cases st with
    | none => simp [shouldKillAll, patternMatchesSpec]
    | some s => simp [shouldKillAll, patternMatchesSpec]

theorem collectResults_ok_prefix (good : List Nat) (e : Nat) (rest : List (Except Nat Nat)) :
    collectResults (good.map Except.ok ++ Except.error e :: rest) = Except.error e := by
  induction good with
  | nil => rfl
  | cons a g ih =>
    have hstep : collectResults (List.map Except.ok (a :: g) ++ Except.error e :: rest)
        = Except.map (fun x => a :: x)
            (collectResults (List.map Except.ok g ++ Except.error e :: rest)) := rfl
    rw [hstep, ih]
    rfl

/-- C3: for every exit outcome observed in an exit report, the pattern
matching in the kill-policy evaluation satisfies: `Success` matches
exactly the clean exits (`success() = true`); `Failed` matches every
non-clean exit and every outcome whose status could not be determined;
`StatusCode(n)` matches exactly the outcomes whose observed code equals
`n`, and never an undeterminable outcome. -/
theorem C3_exit_status_pattern_matching (cmd : CommandStopped) :
    (shouldKillAll (KillBehavior.whenAnyExitedWithStatus ExitStatusPattern.success) cmd
        = true ↔ ∃ s, cmd.exit_status = some s ∧ s.success = true)
    ∧ (shouldKillAll (KillBehavior.whenAnyExitedWithStatus ExitStatusPattern.failed) cmd
        = true ↔
        (cmd.exit_status = Option.none ∨ ∃ s, cmd.exit_status = some s ∧ s.success = false))
    ∧ (∀ n : Int,
        shouldKillAll (KillBehavior.whenAnyExitedWithStatus (ExitStatusPattern.statusCode n))
            cmd = true ↔ ∃ s, cmd.exit_status = some s ∧ s.code = some n) := by
  refine ⟨?_, ?_, ?_⟩
  · simpa [patternMatchesSpec] using
      shouldKillAll_pattern_iff ExitStatusPattern.success cmd
  · simpa [patternMatchesSpec] using
      shouldKillAll_pattern_iff ExitStatusPattern.failed cmd
  · intro n
    simpa [patternMatchesSpec] using
      shouldKillAll_pattern_iff (ExitStatusPattern.statusCode n) cmd

/-- C3 witness: concrete evaluations; an undeterminable status matches
`Failed` but neither `Success` nor `StatusCode(0)`. -/
theorem C3_exit_status_pattern_matching_witness :
    shouldKillAll
        (KillBehavior.whenAnyExitedWithStatus ExitStatusPattern.failed)
        { data := 0, exit_status := Option.none } = true
    ∧ shouldKillAll
        (KillBehavior.whenAnyExitedWithStatus ExitStatusPattern.success)
        { data := 0, exit_status := Option.none } = false := by
  have h := C3_exit_status_pattern_matching { data := 0, exit_status := Option.none }
  refine ⟨?_, ?_⟩
  · exact h.2.1.mpr (Or.inl rfl)
  · cases hb : shouldKillAll
        (KillBehavior.whenAnyExitedWithStatus ExitStatusPattern.success)
        { data := 0, exit_status := Option.none }
    · rfl
    · obtain ⟨s, hs, _⟩ := h.1.mp hb
      exact Option.noConfusion hs

/-- C4: for every exit report, the coordinator's decision is no-kill
under `None`, kill under `WhenAnyExited` regardless of status, and
under `WhenAnyExitedWithStatus(p)` kill exactly when `p` matches the
report's exit outcome; the reason attached is the report itself. -/
theorem C4_kill_decision_per_behavior (cmd : CommandStopped) :
    decideReason KillBehavior.none (Msg.report cmd) = Option.none
    ∧ decideReason KillBehavior.whenAnyExited (Msg.report cmd) =
        some (KillCommandReason.otherCommandExited cmd)
    ∧ (∀ p : ExitStatusPattern,
        (decideReason (KillBehavior.whenAnyExitedWithStatus p) (Msg.report cmd) =
            some (KillCommandReason.otherCommandExited cmd) ↔
          patternMatchesSpec p cmd.exit_status)
        ∧ (decideReason (KillBehavior.whenAnyExitedWithStatus p) (Msg.report cmd) =
            Option.none ↔ ¬ patternMatchesSpec p cmd.exit_status)) := by
  refine ⟨rfl, rfl, ?_⟩
  intro p
  constructor
  · rw [← shouldKillAll_pattern_iff p cmd]
    cases hb : shouldKillAll (KillBehavior.whenAnyExitedWithStatus p) cmd <;>
      simp [decideReason, hb]
  · rw [← shouldKillAll_pattern_iff p cmd]
    cases hb : shouldKillAll (KillBehavior.whenAnyExitedWithStatus p) cmd <;>
      simp [decideReason, hb]

/-- C4 witness: a clean exit under `WhenAnyExitedWithStatus(Success)`
triggers the kill decision with the report as reason; under `None` it
never does. -/
theorem C4_kill_decision_per_behavior_witness :
    decideReason (KillBehavior.whenAnyExitedWithStatus ExitStatusPattern.success)
        (Msg.report { data := 5, exit_status := some { success := true, code := some 0 } }) =
      some (KillCommandReason.otherCommandExited
        { data := 5, exit_status := some { success := true, code := some 0 } })
    ∧ decideReason KillBehavior.none
        (Msg.report { data := 5, exit_status := some { success := true, code := some 0 } }) =
      Option.none := by
  have h := C4_kill_decision_per_behavior
    { data := 5, exit_status := some { success := true, code := some 0 } }
  exact ⟨(h.2.2 ExitStatusPattern.success).1.mpr
    ⟨{ success := true, code := some 0 }, rfl, rfl⟩, h.1⟩

/-- C7: when spawning any command in the input list fails, the whole
construction aborts: `spawn_with_plugin` surfaces the first error and no
(partial) system value is produced. -/
theorem C7_spawn_failure_aborts (kb : KillBehavior) (good : List Nat) (e : Nat)
    (rest : List (Except Nat Nat)) :
    spawn_with_plugin kb (good.map Except.ok ++ Except.error e :: rest) =
      SpawnOutcome.failed e := by
  have hpos : 1 ≤ (good.map Except.ok ++ Except.error e :: rest).length := by
    simp
    omega
  unfold spawn_with_plugin
  rw [Nat.min_eq_right hpos]
  have hch : mpscChannel 1 = some 1 := rfl
  rw [hch, collectResults_ok_prefix]

/-- C10: called with an empty list of command specifications, spawn
neither returns a system nor an error: the channel capacity
`min(0, 1) = 0` makes the tokio channel constructor panic. -/
theorem C10_spawn_empty_panics (kb : KillBehavior) :
    spawn_with_plugin kb [] = SpawnOutcome.panicked := rfl

theorem coordRecvStep_cells (s : Sys) (msg : Msg) (rest : List Msg) :
    (coordRecvStep s msg rest).cells = s.cells := by
  cases hd : decideReason s.kill_behavior msg <;> simp [coordRecvStep, hd]

theorem coordRecvStep_watchers (s : Sys) (msg : Msg) (rest : List Msg) :
    (coordRecvStep s msg rest).watchers = s.watchers := by
  cases hd : decideReason s.kill_behavior msg <;> simp [coordRecvStep, hd]

/-- C1: when the coordinator reaches a kill decision it first drops the
receiver — closing the decision channel and discarding its buffer, so
no further report is accepted — then walks the cells in order, invoking
the per-command killer with the computed reason on exactly those cells
still `Spawned` while modifying no cell (in particular `Stopped` cells
are untouched), and then terminates; over any run kill signals exist
only once the channel is closed and empty, and at most one kill
broadcast is ever acted upon. -/
theorem C1_kill_broadcast :
    (∀ (s : Sys) (msg : Msg) (rest : List Msg) (reason : KillCommandReason),
      decideReason s.kill_behavior msg = some reason →
        (coordRecvStep s msg rest).rxAlive = false
        ∧ (coordRecvStep s msg rest).queue = []
        ∧ (coordRecvStep s msg rest).coord = CoordPhase.broadcasting reason 0
        ∧ (coordRecvStep s msg rest).cells = s.cells)
    ∧ (∀ (s : Sys) (reason : KillCommandReason) (k : Nat),
        (coordKillStep s reason k).cells = s.cells
        ∧ (∀ d, s.cells[k]? = some (CommandState.spawned d) →
            (coordKillStep s reason k).log = s.log ++ [Event.killInvoked k reason])
        ∧ ((∀ d, s.cells[k]? ≠ some (CommandState.spawned d)) →
            (coordKillStep s reason k).log = s.log))
    ∧ (∀ s : Sys, (coordBreakStep s).coord = CoordPhase.done)
    ∧ (∀ (ka : Bool) (kb : KillBehavior) (ds : List Nat) (s : Sys),
        Reachable ka kb ds s →
          countBroadcasts s.log ≤ 1
          ∧ (∀ i r, Event.killInvoked i r ∈ s.log →
              s.rxAlive = false ∧ s.queue = [])) := by
  refine ⟨?_, ?_, fun s => rfl, ?_⟩
  · intro s msg rest reason hd
    simp [coordRecvStep, hd]
  · intro s reason k
    refine ⟨rfl, ?_, ?_⟩
    · intro d hd
      simp only [coordKillStep, hd]
    · intro hnone
      have : (match s.cells[k]? with
          | some (CommandState.spawned _) => [Event.killInvoked k reason]
          | _ => []) = [] := by
        rcases hck : s.cells[k]? with _ | c
        · rfl
        · cases c with
          | processing => rfl
          | spawned d => exact absurd hck (hnone d)
          | stopped r => rfl
      simp only [coordKillStep, this, List.append_nil]
  · intro ka kb ds s h
    have hinv := inv_reachable h
    refine ⟨hinv.bcast_le, fun i r hm => ?_⟩
    have hrx := hinv.kill_closed i r hm
    exact ⟨hrx, hinv.rx_queue hrx⟩

/-- C1 witness: a kill decision on the only command's failed exit under
`WhenAnyExited` closes the channel at once, and the freshly spawned
system has seen no broadcast. -/
theorem C1_kill_broadcast_witness :
    (coordRecvStep (initSys KillBehavior.whenAnyExited [3])
        (Msg.report { data := 3, exit_status := Option.none }) []).rxAlive = false
    ∧ countBroadcasts (initSys KillBehavior.whenAnyExited [3]).log ≤ 1 := by
  have h := C1_kill_broadcast
  refine ⟨(h.1 (initSys KillBehavior.whenAnyExited [3])
      (Msg.report { data := 3, exit_status := Option.none }) []
      (KillCommandReason.otherCommandExited { data := 3, exit_status := Option.none })
      rfl).1, ?_⟩
  exact (h.2.2.2 false KillBehavior.whenAnyExited [3] (initSys KillBehavior.whenAnyExited [3])
    Relation.ReflTransGen.refl).1

/-- C8: kill_all only sends the kill-everything signal into the
decision channel; with the channel already closed the failed send is
ignored and the state is unchanged (harmless no-op returning normally);
and over any run — however many kill_all calls it contains, from
however many cloned handles — at most one kill broadcast is acted
upon. -/
theorem C8_kill_all_idempotent (s : Sys) :
    (s.rxAlive = false → killAllStep s = s)
    ∧ (s.rxAlive = true →
        killAllStep s = { s with queue := s.queue ++ [Msg.killAllSignal] })
    ∧ (∀ (ka : Bool) (kb : KillBehavior) (ds : List Nat) (s' : Sys),
        Reachable ka kb ds s' → countBroadcasts s'.log ≤ 1) := by
  refine ⟨?_, ?_, ?_⟩
  · intro h
    show { s with
      queue := if s.rxAlive = true then s.queue ++ [Msg.killAllSignal] else s.queue } = s
    rw [if_neg (by simp [h])]
  · intro h
    show { s with
      queue := if s.rxAlive = true then s.queue ++ [Msg.killAllSignal] else s.queue } =
        { s with queue := s.queue ++ [Msg.killAllSignal] }
    rw [if_pos h]
  · intro ka kb ds s' h
    exact (inv_reachable h).bcast_le

/-- C8 witness: on a drained (closed) channel kill_all leaves the state
untouched; on the fresh system it only appends the signal to the
queue. -/
theorem C8_kill_all_idempotent_witness :
    killAllStep (coordDrainStep (initSys KillBehavior.none [1])) =
      coordDrainStep (initSys KillBehavior.none [1])
    ∧ (killAllStep (initSys KillBehavior.none [1])).queue = [Msg.killAllSignal] := by
  have h1 := C8_kill_all_idempotent (coordDrainStep (initSys KillBehavior.none [1]))
  have h2 := C8_kill_all_idempotent (initSys KillBehavior.none [1])
  refine ⟨h1.1 rfl, ?_⟩
  rw [h2.2.1 rfl]
  rfl

theorem step_preserves_stopped {ka : Bool} {s s' : Sys} (h : Step ka s s') (i : Nat)
    (r : CommandStopped) (hst : s.cells[i]? = some (CommandState.stopped r)) :
    s'.cells[i]? = some (CommandState.stopped r) := by
  cases h with
  | watcherExit j data outcome hc hw =>
    by_cases hj : j = i
    · subst hj
      rw [hc] at hst
      exact absurd hst (by simp)
    · show (s.cells.set j _)[i]? = _
      rw [List.getElem?_set_ne hj]
      exact hst
  | watcherSend j r' hw => exact hst
  | killAll hka hk => exact hst
  | coordRecv msg rest hco hq => rw [coordRecvStep_cells]; exact hst
  | coordKill reason k hco hk => exact hst
  | coordBreak reason k hco hk => exact hst
  | coordDrain hco hq hs => exact hst

theorem step_cells_change {ka : Bool} {s s' : Sys} (h : Step ka s s') (i : Nat)
    (hne : s.cells[i]? ≠ s'.cells[i]?) :
    ∃ d r, s.cells[i]? = some (CommandState.spawned d)
      ∧ s'.cells[i]? = some (CommandState.stopped r)
      ∧ s.watchers[i]? = some WatcherPhase.waiting
      ∧ s'.watchers[i]? ≠ some WatcherPhase.waiting := by
  cases h with
  | watcherExit j data outcome hc hw =>
    by_cases hj : j = i
    · subst hj
      refine ⟨data, { data := data, exit_status := outcome }, hc, ?_, hw, ?_⟩
      · show (s.cells.set j _)[j]? = _
        rw [List.getElem?_set_eq_of_lt _ (lt_length_of_getElem? hc)]
      · show (s.watchers.set j _)[j]? ≠ _
        rw [List.getElem?_set_eq_of_lt _ (lt_length_of_getElem? hw)]
        cases hrx : s.rxAlive <;> simp
    · exact absurd (show s.cells[i]? = (watcherExitStep s j data outcome).cells[i]? by
        show _ = (s.cells.set j _)[i]?
        rw [List.getElem?_set_ne hj]) hne
  | watcherSend j r' hw => exact absurd rfl hne
  | killAll hka hk => exact absurd rfl hne
  | coordRecv msg rest hco hq =>
    exact absurd (show s.cells[i]? = (coordRecvStep s msg rest).cells[i]? by
      rw [coordRecvStep_cells]) hne
  | coordKill reason k hco hk => exact absurd rfl hne
  | coordBreak reason k hco hk => exact absurd rfl hne
  | coordDrain hco hq hs => exact absurd rfl hne

theorem step_watcher_oneshot {ka : Bool} {s s' : Sys} (h : Step ka s s') (i : Nat)
    (w : WatcherPhase) (hw : s.watchers[i]? = some w) (hne : w ≠ WatcherPhase.waiting) :
    s'.watchers[i]? ≠ some WatcherPhase.waiting := by
  have hbase : s.watchers[i]? ≠ some WatcherPhase.waiting := by
    rw [hw]
    intro hcon
    exact hne (Option.some.inj hcon)
  cases h with
  | watcherExit j data outcome hc hwj =>
    by_cases hj : j = i
    · subst hj
      rw [hwj] at hw
      exact absurd (Option.some.inj hw).symm hne
    · show (s.watchers.set j _)[i]? ≠ _
      rw [List.getElem?_set_ne hj]
      exact hbase
  | watcherSend j r' hwj =>
    by_cases hj : j = i
    · subst hj
      show (s.watchers.set j _)[j]? ≠ _
      rw [List.getElem?_set_eq_of_lt _ (lt_length_of_getElem? hwj)]
      simp
    · show (s.watchers.set j _)[i]? ≠ _
      rw [List.getElem?_set_ne hj]
      exact hbase
  | killAll hka hk => exact hbase
  | coordRecv msg rest hco hq => rw [coordRecvStep_watchers]; exact hbase
  | coordKill reason k hco hk => exact hbase
  | coordBreak reason k hco hk => exact hbase
  | coordDrain hco hq hs => exact hbase

/-- C5: the locked transition writes exactly the sequence `Spawned →
Processing → Stopped`; the watcher panics (aborts) on any observed
state other than `Spawned`; no step of the system ever moves a cell out
of `Stopped`; the only way any cell changes is the one-shot
`Spawned → Stopped` transition of its own watcher, whose phase leaves
`waiting` in the same step and never returns to it — so each command
undergoes exactly one transition over its lifetime. -/
theorem C5_state_machine :
    (∀ (data : Nat) (outcome : Option ExitStatus),
      watcherLockWrites (CommandState.spawned data) outcome =
        some [CommandState.processing,
              CommandState.stopped { data := data, exit_status := outcome }])
    ∧ (∀ (st : CommandState) (outcome : Option ExitStatus),
        (∀ d, st ≠ CommandState.spawned d) → watcherLockWrites st outcome = Option.none)
    ∧ (∀ (ka : Bool) (s s' : Sys), Step ka s s' → ∀ (i : Nat) (r : CommandStopped),
        s.cells[i]? = some (CommandState.stopped r) →
        s'.cells[i]? = some (CommandState.stopped r))
    ∧ (∀ (ka : Bool) (s s' : Sys), Step ka s s' → ∀ i : Nat,
        s.cells[i]? ≠ s'.cells[i]? →
        ∃ d r, s.cells[i]? = some (CommandState.spawned d)
          ∧ s'.cells[i]? = some (CommandState.stopped r)
          ∧ s.watchers[i]? = some WatcherPhase.waiting
          ∧ s'.watchers[i]? ≠ some WatcherPhase.waiting)
    ∧ (∀ (ka : Bool) (s s' : Sys), Step ka s s' → ∀ (i : Nat) (w : WatcherPhase),
        s.watchers[i]? = some w → w ≠ WatcherPhase.waiting →
        s'.watchers[i]? ≠ some WatcherPhase.waiting) := by
  refine ⟨fun data outcome => rfl, ?_, ?_, ?_, ?_⟩
  · intro st outcome hnot
    cases st with
    | processing => rfl
    | spawned d => exact absurd rfl (hnot d)
    | stopped r => rfl
  · intro ka s s' h i r hst
    exact step_preserves_stopped h i r hst
  · intro ka s s' h i hne
    exact step_cells_change h i hne
  · intro ka s s' h i w hw hne
    exact step_watcher_oneshot h i w hw hne

/-- C5 witness: a concrete watcher-exit step on command 0 leaves
command 1's `Stopped` cell untouched. -/
theorem C5_state_machine_witness :
    (watcherExitStep
        { kill_behavior := KillBehavior.none
          cells := [CommandState.spawned 0,
                    CommandState.stopped { data := 1, exit_status := Option.none }]
          watchers := [WatcherPhase.waiting, WatcherPhase.done]
          queue := []
          rxAlive := true
          systemKillerAlive := true
          coord := CoordPhase.recving
          log := [] } 0 0 Option.none).cells[1]? =
      some (CommandState.stopped { data := 1, exit_status := Option.none }) := by
  have h := C5_state_machine
  exact h.2.2.1 false _ _
    (Step.watcherExit
      ({ kill_behavior := KillBehavior.none
         cells := [CommandState.spawned 0,
                   CommandState.stopped { data := 1, exit_status := Option.none }]
         watchers := [WatcherPhase.waiting, WatcherPhase.done]
         queue := []
         rxAlive := true
         systemKillerAlive := true
         coord := CoordPhase.recving
         log := [] } : Sys) 0 0 Option.none rfl rfl)
    1 { data := 1, exit_status := Option.none } rfl

theorem collectStopped_isSome_iff (cells : List CommandState) :
    (∃ records, collectStopped cells = some records) ↔
      ∀ c ∈ cells, ∃ r, c = CommandState.stopped r := by
  induction cells with
  | nil => exact ⟨fun _ => by simp, fun _ => ⟨[], rfl⟩⟩
  | cons c rest ih =>
    cases c with
    | processing =>
      constructor
      · rintro ⟨records, hrec⟩
        exact Option.noConfusion hrec
      · intro hall
        obtain ⟨r, hr⟩ := hall CommandState.processing (List.mem_cons_self _ _)
        exact absurd hr (by simp)
    | spawned d =>
      constructor
      · rintro ⟨records, hrec⟩
        exact Option.noConfusion hrec
      · intro hall
        obtain ⟨r, hr⟩ := hall (CommandState.spawned d) (List.mem_cons_self _ _)
        exact absurd hr (by simp)
    | stopped r0 =>
      have hstep : collectStopped (CommandState.stopped r0 :: rest)
          = (collectStopped rest).map (r0 :: ·) := rfl
      constructor
      · rintro ⟨records, hrec⟩
        rw [hstep] at hrec
        obtain ⟨rs, hrs, -⟩ := Option.map_eq_some'.mp hrec
        intro c hc
        rcases List.mem_cons.mp hc with hceq | hcm
        · exact ⟨r0, hceq⟩
        · exact (ih.mp ⟨rs, hrs⟩) c hcm
      · intro hall
        obtain ⟨rs, hrs⟩ := ih.mpr fun c hc => hall c (List.mem_cons_of_mem _ hc)
        exact ⟨r0 :: rs, by rw [hstep, hrs]; rfl⟩

theorem collectStopped_getElem (cells : List CommandState) (records : List CommandStopped)
    (h : collectStopped cells = some records) :
    records.length = cells.length
    ∧ ∀ (i : Nat) (r : CommandStopped),
        records[i]? = some r ↔ cells[i]? = some (CommandState.stopped r) := by
  induction cells generalizing records with
  | nil =>
    have hrec : records = [] := (Option.some.inj h).symm
    subst hrec
    exact ⟨rfl, by intro i r; simp⟩
  | cons c rest ih =>
    cases c with
    | processing => exact Option.noConfusion h
    | spawned d => exact Option.noConfusion h
    | stopped r0 =>
      have hstep : collectStopped (CommandState.stopped r0 :: rest)
          = (collectStopped rest).map (r0 :: ·) := rfl
      rw [hstep] at h
      obtain ⟨rs, hrs, hrec⟩ := Option.map_eq_some'.mp h
      subst hrec
      obtain ⟨hlen, hidx⟩ := ih rs hrs
      refine ⟨by simp [hlen], ?_⟩
      intro i r
      cases i with
      | zero => simp
      | succ i => simpa using hidx i r

/-- C6: wait, after joining every watcher task and the coordinator
task, reads every state cell: it returns records exactly when every
cell is `Stopped` (any other cell is a fatal panic, modelled `none`,
not a recoverable error), and then the records are exactly one per
originally spawned command, in the original command order; the plugin's
background task, when present, is awaited after the records are
collected, and never otherwise. -/
theorem C6_wait_collects_in_order (s : Sys) (hasJoin : Bool) :
    ((∃ records, wait_into_stopped_commands s = some records) ↔
      ∀ c ∈ s.cells, ∃ r, c = CommandState.stopped r)
    ∧ (∀ records, wait_into_stopped_commands s = some records →
        records.length = s.cells.length
        ∧ ∀ (i : Nat) (r : CommandStopped),
            records[i]? = some r ↔ s.cells[i]? = some (CommandState.stopped r))
    ∧ (waitPhases hasJoin).indexOf WaitPhase.joinedHandles <
        (waitPhases hasJoin).indexOf WaitPhase.readCells
    ∧ (hasJoin = true → WaitPhase.pluginJoinAwaited ∈ waitPhases hasJoin
        ∧ (waitPhases hasJoin).indexOf WaitPhase.readCells <
            (waitPhases hasJoin).indexOf WaitPhase.pluginJoinAwaited)
    ∧ (hasJoin = false → WaitPhase.pluginJoinAwaited ∉ waitPhases hasJoin) := by
  refine ⟨collectStopped_isSome_iff s.cells,
    fun records h => collectStopped_getElem s.cells records h, ?_, ?_, ?_⟩
  · cases hasJoin <;> decide
  · intro hj
    subst hj
    exact ⟨by decide, by decide⟩
  · intro hj
    subst hj
    decide

/-- C6 witness: on a system whose two cells are both `Stopped`, wait
returns exactly the two records in order; with a plugin background
task, the await comes after the cells are read. -/
theorem C6_wait_collects_in_order_witness :
    (([{ data := 0, exit_status := Option.none },
       { data := 1, exit_status := some { success := true, code := some 0 } }] :
        List CommandStopped).length =
      ([CommandState.stopped { data := 0, exit_status := Option.none },
        CommandState.stopped
          { data := 1, exit_status := some { success := true, code := some 0 } }] :
        List CommandState).length)
    ∧ WaitPhase.pluginJoinAwaited ∈ waitPhases true := by
  have h := C6_wait_collects_in_order
    { kill_behavior := KillBehavior.none
      cells := [CommandState.stopped { data := 0, exit_status := Option.none },
                CommandState.stopped
                  { data := 1, exit_status := some { success := true, code := some 0 } }]
      watchers := [WatcherPhase.done, WatcherPhase.done]
      queue := []
      rxAlive := true
      systemKillerAlive := true
      coord := CoordPhase.recving
      log := [] } true
  exact ⟨(h.2.1 [{ data := 0, exit_status := Option.none },
    { data := 1, exit_status := some { success := true, code := some 0 } }] rfl).1,
    (h.2.2.2.1 rfl).1⟩

/-- C9 counterexample: in the watcher's exit handling with the channel
still open, the plugin's on-exit notification (position 3, line 97 of
system.rs) happens before the guard is dropped (position 4, line 104):
the lock is NOT released before the plugin notification, contrary to
the claim. -/
theorem C9_lock_release_counterexample :
    ¬ ((watcherExitActions false).indexOf WatcherAction.lockRelease <
        (watcherExitActions false).indexOf WatcherAction.pluginNotify) := by
  decide

/-- C9 amended: the cell lock is acquired before the transition, held
across the state read/transition AND the plugin's on-exit notification,
and released after it — before the channel send, the only await point —
and the plugin is notified exactly once per command, even when the
decision channel is already closed. -/
theorem C9_lock_held_across_notify :
    (∀ tx_closed : Bool,
      (watcherExitActions tx_closed).indexOf WatcherAction.lockAcquire <
          (watcherExitActions tx_closed).indexOf WatcherAction.writeProcessing
      ∧ (watcherExitActions tx_closed).indexOf WatcherAction.writeStopped <
          (watcherExitActions tx_closed).indexOf WatcherAction.pluginNotify
      ∧ (watcherExitActions tx_closed).indexOf WatcherAction.pluginNotify <
          (watcherExitActions tx_closed).indexOf WatcherAction.lockRelease
      ∧ (watcherExitActions tx_closed).count WatcherAction.pluginNotify = 1)
    ∧ ((watcherExitActions false).indexOf WatcherAction.lockRelease <
        (watcherExitActions false).indexOf WatcherAction.channelSend)
    ∧ WatcherAction.channelSend ∉ watcherExitActions true
    ∧ (∀ (ka : Bool) (kb : KillBehavior) (ds : List Nat) (s : Sys),
        Reachable ka kb ds s →
          ∀ (i : Nat) (w : WatcherPhase), s.watchers[i]? = some w →
            w ≠ WatcherPhase.waiting → countNotify i s.log = 1) := by
  refine ⟨?_, by decide, by decide, ?_⟩
  · intro b
    cases b <;> exact ⟨by decide, by decide, by decide, by decide⟩
  · intro ka kb ds s h i w hw hne
    exact (inv_reachable h).notify_active i w hw hne

/-- C9 witness: after the one watcher of a fresh single-command system
fires, its command has exactly one plugin notification in the log. -/
theorem C9_lock_held_across_notify_witness :
    countNotify 0
      (watcherExitStep (initSys KillBehavior.whenAnyExited [5]) 0 5 Option.none).log = 1 := by
  have h := C9_lock_held_across_notify
  exact h.2.2.2 false KillBehavior.whenAnyExited [5] _
    (Relation.ReflTransGen.tail Relation.ReflTransGen.refl
      (Step.watcherExit (initSys KillBehavior.whenAnyExited [5]) 0 5 Option.none rfl rfl))
    0 (WatcherPhase.sending { data := 5, exit_status := Option.none }) rfl (by simp)

theorem invNone_step {s s' : Sys} (hinv : Inv s) (hn : InvNone s)
    (hstep : Step false s s') : InvNone s' := by
  cases hstep with
  | watcherExit i data outcome hc hw =>
    refine ⟨hn.kb, hn.coord_recv, hn.queue_reports, ?_⟩
    intro e he
    simp only [watcherExitStep, List.mem_append, List.mem_singleton] at he
    rcases he with he | he
    · exact hn.log_clean e he
    · exact ⟨i, { data := data, exit_status := outcome }, he⟩
  | watcherSend i r hw =>
    refine ⟨hn.kb, hn.coord_recv, ?_, hn.log_clean⟩
    intro m hm
    simp only [watcherSendStep] at hm
    cases hrx : s.rxAlive
    · rw [hrx] at hm
      simp only [Bool.false_eq_true, if_false] at hm
      exact hn.queue_reports m hm
    · rw [hrx] at hm
      simp only [if_true] at hm
      rcases List.mem_append.mp hm with hm | hm
      · exact hn.queue_reports m hm
      · exact ⟨r, List.mem_singleton.mp hm⟩
  | killAll hka hk => exact Bool.noConfusion hka
  | coordRecv msg rest hco hq =>
    obtain ⟨cmd, hmsg⟩ := hn.queue_reports msg (by rw [hq]; exact List.mem_cons_self _ _)
    subst hmsg
    have hd : decideReason s.kill_behavior (Msg.report cmd) = Option.none := by
      rw [hn.kb]
      rfl
    have he : coordRecvStep s (Msg.report cmd) rest = { s with queue := rest } := by
      simp [coordRecvStep, hd]
    rw [he]
    refine ⟨hn.kb, hn.coord_recv, ?_, hn.log_clean⟩
    intro m hm
    exact hn.queue_reports m (by rw [hq]; exact List.mem_cons_of_mem _ hm)
  | coordKill reason k hco hk =>
    rw [hn.coord_recv] at hco
    exact CoordPhase.noConfusion hco
  | coordBreak reason k hco hk =>
    rw [hn.coord_recv] at hco
    exact CoordPhase.noConfusion hco
  | coordDrain hco hq hs =>
    rw [sendersAlive_of_killer hinv.killer_alive] at hs
    exact Bool.noConfusion hs

theorem invNone_reachable {ds : List Nat} {s : Sys}
    (h : Relation.ReflTransGen (Step false) (initSys KillBehavior.none ds) s) :
    InvNone s := by
  induction h with
  | refl => exact ⟨rfl, rfl, by simp [initSys], by simp [initSys]⟩
  | tail hpre hstep ih => exact invNone_step (inv_reachable hpre) ih hstep

/-- C2 is false of the code: on a run with `KillBehavior::None` where
`kill_all` is never invoked, the coordinator never terminates at all —
the `CommandSystem`'s `killer` field retains a channel sender, so a
sender is alive in every reachable state and `rx.recv()` can never
return `None`; the coordinator stays in its receive loop forever,
issuing no kill and never draining, and `wait`, which joins the
coordinator's handle before reading any cell, blocks forever. -/
theorem C2_coordinator_never_terminates (ds : List Nat) (s : Sys)
    (h : Relation.ReflTransGen (Step false) (initSys KillBehavior.none ds) s) :
    s.coord = CoordPhase.recving
    ∧ sendersAlive s = true
    ∧ Event.channelDrained ∉ s.log
    ∧ (∀ i r, Event.killInvoked i r ∉ s.log) := by
  have hreach : Reachable false KillBehavior.none ds s := h
  have hinv : Inv s := inv_reachable hreach
  have hn := invNone_reachable h
  refine ⟨hn.coord_recv, sendersAlive_of_killer hinv.killer_alive, ?_, ?_⟩
  · intro hmem
    obtain ⟨i, cmd, heq⟩ := hn.log_clean _ hmem
    exact Event.noConfusion heq
  · intro i r hmem
    obtain ⟨j, cmd, heq⟩ := hn.log_clean _ hmem
    exact Event.noConfusion heq

/-- C2 witness: after the complete clean run (all commands exited, all
reports consumed, no kill decision possible) the coordinator is still
blocked in its receive loop with a live sender. -/
theorem C2_coordinator_never_terminates_witness :
    sysAfterCleanRun.coord = CoordPhase.recving
    ∧ sendersAlive sysAfterCleanRun = true
    ∧ Event.channelDrained ∉ sysAfterCleanRun.log := by
  have hreach : Relation.ReflTransGen (Step false) (initSys KillBehavior.none [1, 2])
      sysAfterCleanRun := by
    have r1 : Relation.ReflTransGen (Step false) (initSys KillBehavior.none [1, 2])
        (watcherExitStep (initSys KillBehavior.none [1, 2]) 0 1 Option.none) :=
      Relation.ReflTransGen.tail (Relation.ReflTransGen.refl)
        (Step.watcherExit (initSys KillBehavior.none [1, 2]) 0 1 Option.none rfl rfl)
    have r2 := Relation.ReflTransGen.tail r1
      (Step.watcherSend _ 0 { data := 1, exit_status := Option.none } rfl)
    have r3 := Relation.ReflTransGen.tail r2
      (Step.coordRecv _ (Msg.report { data := 1, exit_status := Option.none }) [] rfl rfl)
    have r4 := Relation.ReflTransGen.tail r3
      (Step.watcherExit _ 1 2 Option.none rfl rfl)
    have r5 := Relation.ReflTransGen.tail r4
      (Step.watcherSend _ 1 { data := 2, exit_status := Option.none } rfl)
    exact Relation.ReflTransGen.tail r5
      (Step.coordRecv _ (Msg.report { data := 2, exit_status := Option.none }) [] rfl rfl)
  have h := C2_coordinator_never_terminates [1, 2] sysAfterCleanRun hreach
  exact ⟨h.1, h.2.1, h.2.2.1⟩

end Runcc
